import Mathlib

/-
Shallow embedding of the multi-role event fan-out consumer of the
task-management-system repository, together with proofs of its stated
properties.

Embedded source files:
  * django_backend/apps/common/events/base.py  (EventPayload: __init__, to_dict)
  * kafka/consumers.py                         (ts_day, the poll/dispatch loop,
                                                the five role projections, the
                                                signal handling and shutdown)

Modelling conventions:
  * Decoded JSON values are the inductive `Json` below.  Python `None` and
    JSON `null` are identified (json.loads maps null to None).  JSON numbers
    are modelled as integers; the claims under study never involve floats.
  * The JSON text layer (json.dumps / json.loads) is an external library and
    is modelled as the identity on `Json` trees: for the tree fragment used
    here the round trip through text is lossless by the library's contract.
  * The storage backends (psycopg2 / redis) are external collaborators and
    are modelled by their effect: a relational table is a list of rows or a
    primary-keyed association list, a redis list is a Lean list, a family of
    redis hashes is a function key -> field -> count.
  * A Python exception that the code does not catch kills the process; the
    per-message step therefore returns `Option`, `none` meaning the process
    crashed on that message.
-/

/-! ## JSON values (results of json.loads / arguments of json.dumps) -/

mutual
inductive Json where
  | null : Json
  | bool (b : Bool) : Json
  | num (n : Int) : Json
  | str (s : String) : Json
  | arr (elems : JsonList) : Json
  | obj (fields : JsonFields) : Json
  deriving DecidableEq
inductive JsonList where
  | nil : JsonList
  | cons (hd : Json) (tl : JsonList) : JsonList
  deriving DecidableEq
inductive JsonFields where
  | nil : JsonFields
  | cons (key : String) (val : Json) (tl : JsonFields) : JsonFields
  deriving DecidableEq
end

/-- First value stored under key `k` in a decoded JSON object / Python dict
(Python dicts have unique keys; json.loads keeps the last duplicate, and the
objects built by this code have distinct literal keys). -/
def JsonFields.lookup (k : String) : JsonFields → Option Json
  | .nil => none
  | .cons key v tl => if key = k then some v else tl.lookup k

/-- Python `d.get(k)`: the stored value, or `None` when the key is absent. -/
def JsonFields.get (d : JsonFields) (k : String) : Json :=
  (d.lookup k).getD .null

/-- Python `d.get(k, dflt)`: the stored value, or `dflt` when the key is absent. -/
def JsonFields.getD (d : JsonFields) (k : String) (dflt : Json) : Json :=
  (d.lookup k).getD dflt

/-- Python `k in d` on a dict: key membership, regardless of the stored value. -/
def JsonFields.hasKey (d : JsonFields) (k : String) : Bool :=
  (d.lookup k).isSome

/-- Python truthiness of a decoded JSON value (`et or "unknown"` in the
analytics branch): None, False, 0, "", [] and empty dicts are falsy. -/
def jsonTruthy : Json → Bool
  | .null => false
  | .bool b => b
  | .num n => n != 0
  | .str s => s ≠ ""
  | .arr l => l ≠ .nil
  | .obj f => f ≠ .nil

/-! ## datetime (the fragment used by EventPayload and ts_day) -/

/-- A Python `datetime` as the code uses it: calendar fields plus whether the
value is timezone-aware with tzinfo UTC (`utc = true`) or naive
(`utc = false`, e.g. the result of `datetime.utcnow()`).  The code never
builds datetimes with any other tzinfo. -/
structure PyDatetime where
  year : Nat
  month : Nat
  day : Nat
  hour : Nat
  minute : Nat
  second : Nat
  microsecond : Nat
  utc : Bool
  deriving DecidableEq

/-- Two-digit zero-padded decimal rendering (`%02d` for in-range fields;
Python datetime fields are range-checked at construction). -/
def twoDigits (n : Nat) : List Char :=
  [Nat.digitChar (n / 10 % 10), Nat.digitChar (n % 10)]

/-- Four-digit zero-padded decimal rendering (`%04d` for the year). -/
def fourDigits (n : Nat) : List Char :=
  [Nat.digitChar (n / 1000 % 10), Nat.digitChar (n / 100 % 10),
   Nat.digitChar (n / 10 % 10), Nat.digitChar (n % 10)]

/-- Six-digit zero-padded decimal rendering (`%06d` for microseconds). -/
def sixDigits (n : Nat) : List Char :=
  [Nat.digitChar (n / 100000 % 10), Nat.digitChar (n / 10000 % 10),
   Nat.digitChar (n / 1000 % 10), Nat.digitChar (n / 100 % 10),
   Nat.digitChar (n / 10 % 10), Nat.digitChar (n % 10)]

/-- Python `datetime.isoformat()`: `YYYY-MM-DDTHH:MM:SS`, then `.ffffff` when the
microsecond field is nonzero, then the `+00:00` offset exactly when the
datetime is timezone-aware (UTC is the only tzinfo this code ever attaches);
a naive datetime renders with no offset. -/
def PyDatetime.isoformat (t : PyDatetime) : String :=
  String.mk (fourDigits t.year ++ ['-'] ++ twoDigits t.month ++ ['-'] ++ twoDigits t.day
    ++ ['T'] ++ twoDigits t.hour ++ [':'] ++ twoDigits t.minute ++ [':'] ++ twoDigits t.second
    ++ (if t.microsecond = 0 then [] else ['.'] ++ sixDigits t.microsecond)
    ++ (if t.utc then ['+', '0', '0', ':', '0', '0'] else []))

/-- Python `datetime.utcnow()`: the current UTC wall-clock reading `clock`, returned
as a naive datetime (CPython drops the tzinfo). -/
def utcnow (clock : PyDatetime) : PyDatetime :=
  { clock with utc := false }

/-- An ISO-8601 rendering carries an explicit UTC offset iff it contains the
sign character of `+00:00` (the only offset this code can produce). -/
def hasUtcOffset (s : String) : Bool :=
  s.data.contains '+'

/-! ## EventPayload (django_backend/apps/common/events/base.py, lines 5-23) -/

/-- An exception raised by the Python runtime. -/
inductive PyErr where
  | typeError (msg : String)
  deriving DecidableEq

structure EventPayload where
  event_type : String
  user_id : Int
  timestamp : PyDatetime
  data : JsonFields
  metadata : JsonFields
  deriving DecidableEq

/-- A call to `EventPayload(event_type, user_id, timestamp=None, data=None,
metadata=None)`.  `event_type` and `user_id` are required positional
parameters: omitting either raises TypeError.  `timestamp or datetime.utcnow()`
picks the argument when given (datetimes are always truthy), else the naive
current UTC time; `data or {}` and `metadata or {}` default to empty dicts.
`clock` is the current UTC wall-clock reading at the call. -/
def EventPayload.init (clock : PyDatetime) (event_type : Option String)
    (user_id : Option Int) (timestamp : Option PyDatetime)
    (data : Option JsonFields) (metadata : Option JsonFields) :
    Except PyErr EventPayload :=
  match event_type, user_id with
  | some et, some uid =>
      .ok ⟨et, uid, timestamp.getD (utcnow clock), data.getD .nil, metadata.getD .nil⟩
  | _, _ => .error (.typeError "missing required positional argument")

/-- Method `EventPayload.to_dict`: the dict handed to json.dumps by every publisher. -/
def EventPayload.to_dict (e : EventPayload) : JsonFields :=
  .cons "event_type" (.str e.event_type)
    (.cons "user_id" (.num e.user_id)
      (.cons "timestamp" (.str e.timestamp.isoformat)
        (.cons "data" (.obj e.data)
          (.cons "metadata" (.obj e.metadata) .nil))))

/-! ## kafka/consumers.py: ts_day and Python str() (used by the f-strings) -/

/-- Python `s.replace("Z", "+00:00")` on the character list of `s`. -/
def replaceZ : List Char → List Char
  | [] => []
  | c :: cs =>
      if c = 'Z' then '+' :: '0' :: '0' :: ':' :: '0' :: '0' :: replaceZ cs
      else c :: replaceZ cs

/-- Numeric value of a decimal digit character. -/
def digitVal (c : Char) : Nat := c.toNat - 48

/-- Modelled from datetime.fromisoformat: a string parses iff it starts with a
zero-padded `YYYY-MM-DD` date (month 1-12, day 1-31) that is either the whole
string or is followed by a `T` or space separator and a time part.  The
validation of the time part itself is abstracted (accepted); the claims under
study constrain only the date that ts_day extracts. -/
def validIso : List Char → Bool
  | y1 :: y2 :: y3 :: y4 :: s1 :: mo1 :: mo2 :: s2 :: d1 :: d2 :: rest =>
      y1.isDigit && y2.isDigit && y3.isDigit && y4.isDigit &&
      s1 = '-' && mo1.isDigit && mo2.isDigit && s2 = '-' && d1.isDigit && d2.isDigit &&
      (let mo := digitVal mo1 * 10 + digitVal mo2
       let d := digitVal d1 * 10 + digitVal d2
       1 ≤ mo && mo ≤ 12 && 1 ≤ d && d ≤ 31) &&
      (match rest with
       | [] => true
       | c :: _ => c = 'T' || c = ' ')
  | _ => false

/-- Function `ts_day` (consumers.py lines 68-73): parse the value found under
"timestamp" as ISO-8601 after replacing "Z" by "+00:00" and render the date
as `%Y-%m-%d`; on any exception (non-string value, so `.replace` raises, or
an unparseable string) fall back to the current date `nowDay`.  fromisoformat
keeps the written offset, so the rendered date is the written date prefix. -/
def ts_day (v : Json) (nowDay : String) : String :=
  match v with
  | .str s =>
      let cs := replaceZ s.data
      if validIso cs then String.mk (cs.take 10) else nowDay
  | _ => nowDay

/-- The single-quote character used by Python repr of strings. -/
def pyQuote : String := String.mk [Char.ofNat 39]

mutual
/-- Python `str()` of a decoded JSON value, as applied by the f-string
`f"{data.get('title','')} {data.get('description','')}"`; container rendering
models Python repr (string escaping inside repr is abstracted). -/
def pyStr : Json → String
  | .null => "None"
  | .bool true => "True"
  | .bool false => "False"
  | .num n => toString n
  | .str s => s
  | .arr l => "[" ++ pyReprList l ++ "]"
  | .obj f => "\x7b" ++ pyReprFields f ++ "\x7d"
/-- Python `repr()` of a decoded JSON value (inside containers). -/
def pyRepr : Json → String
  | .null => "None"
  | .bool true => "True"
  | .bool false => "False"
  | .num n => toString n
  | .str s => pyQuote ++ s ++ pyQuote
  | .arr l => "[" ++ pyReprList l ++ "]"
  | .obj f => "\x7b" ++ pyReprFields f ++ "\x7d"
/-- Comma-separated reprs of list elements. -/
def pyReprList : JsonList → String
  | .nil => ""
  | .cons x .nil => pyRepr x
  | .cons x (.cons y tl) => pyRepr x ++ ", " ++ pyReprList (.cons y tl)
/-- Comma-separated `key: value` reprs of dict entries. -/
def pyReprFields : JsonFields → String
  | .nil => ""
  | .cons k v .nil => pyQuote ++ k ++ pyQuote ++ ": " ++ pyRepr v
  | .cons k v (.cons k2 v2 tl) =>
      pyQuote ++ k ++ pyQuote ++ ": " ++ pyRepr v ++ ", " ++ pyReprFields (.cons k2 v2 tl)
end

/-! ## kafka/consumers.py: per-role stores and the dispatch loop -/

/-- The fixed ROLE a consumer process is started with (consumers.py line 17). -/
inductive Role where
  | notifications
  | activityFeed
  | analytics
  | searchIndex
  | audit
  deriving DecidableEq

/-- Roles that open the Postgres connection at start (line 26). -/
def pgOpen (r : Role) : Bool :=
  r = .activityFeed || r = .searchIndex || r = .audit

/-- Roles that open the Redis connection at start (line 29). -/
def rdOpen (r : Role) : Bool :=
  r = .notifications || r = .analytics

/-- A row of the `activity_feed` table as this code inserts it (the db-filled
`id` and `ts` columns are omitted). -/
structure FeedRow where
  user_id : Json
  event_type : Json
  entity : String
  entity_id : Json
  payload : Json
  deriving DecidableEq

/-- A row of the `audit_logs` table as this code inserts it. -/
structure AuditRow where
  user_id : Json
  event_type : Json
  payload : Json
  deriving DecidableEq

/-- redis-py encoding of a hash field value: str and int encode to their
decimal/verbatim text; None, bool and containers raise DataError. -/
def redisFieldStr : Json → Option String
  | .str s => some s
  | .num n => some (toString n)
  | _ => none

/-- The `on conflict (task_id) do update` upsert of `search_index_tasks`:
replace the document of an existing primary key, else insert a fresh row. -/
def searchUpsert (tid : Json) (txt : String) :
    List (Json × String) → List (Json × String)
  | [] => [(tid, txt)]
  | p :: rest => if p.1 = tid then (tid, txt) :: rest else p :: searchUpsert tid txt rest

/-- hincrby on the family of analytics hashes: add `1` to field `f` of hash
`k`, touching nothing else. -/
def hincrby (k f : String) (c : String → String → Nat) : String → String → Nat :=
  fun k2 f2 => if k2 = k ∧ f2 = f then c k2 f2 + 1 else c k2 f2

/-- The downstream stores a consumer process can write: the redis list
"notifications" (head = most recent lpush), the `activity_feed` table in
insertion order, the analytics hash counters, the `search_index_tasks` table
keyed by task_id, and the `audit_logs` table in insertion order. -/
structure Stores where
  notifList : List Json
  feed : List FeedRow
  analytics : String → String → Nat
  searchIdx : List (Json × String)
  auditLog : List AuditRow

/-- The compact record json.dumps-ed onto the notification list (line 119). -/
def notifRecord (topic : String) (et uid data : Json) : Json :=
  .obj (.cons "topic" (.str topic)
    (.cons "event_type" et
      (.cons "user_id" uid
        (.cons "data" data .nil))))

/-- The text indexed for a task (line 142): the f-string over title and
description, missing keys defaulting to the empty string. -/
def searchText (d : JsonFields) : String :=
  pyStr (d.getD "title" (.str "")) ++ " " ++ pyStr (d.getD "description" (.str ""))

/-- A polled Kafka message: its topic, its decoded key, and the result of
json.loads on its value (`none` when the bytes are not valid JSON and
json.loads raises). -/
structure KMsg where
  topic : String
  key : Option String
  value : Option Json
  deriving DecidableEq

/-- One iteration of the dispatch loop on a received message (consumers.py
lines 107-162).  A json.loads failure is caught: the message is dropped and
the loop continues with the stores untouched.  After that no exception is
caught, so `none` models an uncaught exception killing the process: `v.get`
on a non-dict value raises AttributeError for every role; the activity-feed
and search-index branches raise on a non-dict `data` (`in` / `.get`); redis
raises DataError on a truthy non-str non-int event_type field.  `nowDay` is
the current date, used only by the ts_day fallback. -/
def processMessage (role : Role) (nowDay : String) (st : Stores) (m : KMsg) :
    Option Stores :=
  match m.value with
  | none => some st
  | some v =>
    match v with
    | .obj fields =>
      let et := fields.get "event_type"
      let uid := fields.get "user_id"
      let data := fields.getD "data" (.obj .nil)
      match role with
      | .notifications =>
          some { st with notifList := notifRecord m.topic et uid data :: st.notifList }
      | .activityFeed =>
          match data with
          | .obj d =>
              let ent := if d.hasKey "task_id" then "task" else "generic"
              let entId := d.get "task_id"
              some { st with feed := st.feed ++ [⟨uid, et, ent, entId, v⟩] }
          | _ => none
      | .analytics =>
          let day := ts_day (fields.getD "timestamp" (.str "")) nowDay
          let keyh := "analytics:" ++ day
          let field := if jsonTruthy et then et else .str "unknown"
          match redisFieldStr field with
          | some fs => some { st with analytics := hincrby keyh fs st.analytics }
          | none => none
      | .searchIndex =>
          match data with
          | .obj d =>
              let tid := d.get "task_id"
              if tid = .null then some st
              else some { st with searchIdx := searchUpsert tid (searchText d) st.searchIdx }
          | _ => none
      | .audit =>
          some { st with auditLog := st.auditLog ++ [⟨uid, et, v⟩] }
    | _ => none

/-- The dispatch loop over a finite stream of received messages; stops with
`none` when a message kills the process. -/
def processAll (role : Role) (nowDay : String) (st : Stores) : List KMsg → Option Stores
  | [] => some st
  | m :: ms =>
      match processMessage role nowDay st m with
      | some st2 => processAll role nowDay st2 ms
      | none => none

/-! ## kafka/consumers.py: signals, the while loop, the shutdown sequence -/

/-- One poll iteration's environment: whether an interrupt/terminate signal
arrives during the iteration (i.e. anywhere after the top-of-loop flag
check), and what `c.poll(1.0)` returns (`none` for an empty poll or a
poll-level error, both of which just continue the loop). -/
structure LoopInput where
  sig : Bool
  msg : Option KMsg
  deriving DecidableEq

/-- The `_graceful` signal handler (lines 89-91), installed for SIGINT and
SIGTERM: its entire effect on the process is to set the `_shutdown` flag. -/
def gracefulHandler (shutdownFlag : Bool) : Bool :=
  shutdownFlag || true

/-- The `while not _shutdown` loop (lines 99-162): the flag is consulted only
at the top of each iteration; a signal delivered during an iteration runs
`gracefulHandler` (setting the flag) and nothing else, so that iteration's
message still completes its projection; the loop then exits at the next
top-of-loop check, leaving the remaining inputs unconsumed.  `none` models a
projection exception killing the process. -/
def consumerLoop (role : Role) (nowDay : String) :
    Bool → Stores → List LoopInput → Option Stores
  | _, st, [] => some st
  | flag, st, i :: is =>
      if flag then some st
      else
        let flag2 := if i.sig then gracefulHandler flag else flag
        match i.msg with
        | none => consumerLoop role nowDay flag2 st is
        | some m =>
            match processMessage role nowDay st m with
            | some st2 => consumerLoop role nowDay flag2 st2 is
            | none => none

/-- A connection-closing call issued after the loop exits. -/
inductive CloseAction where
  | consumer
  | pgClose
  | rdClose
  deriving DecidableEq

/-- The shutdown sequence after the loop exits (lines 164-169): `c.close()`
on the Kafka consumer (exceptions suppressed), then `pg.close()` when the
Postgres connection was opened.  No `rd.close()` appears in the code. -/
def closeSequence (r : Role) : List CloseAction :=
  [.consumer] ++ (if pgOpen r then [.pgClose] else [])

/-! ## Derived notions used by the theorems -/

/-- Number of rows of the search table holding primary key `tid`. -/
def keyCount (tid : Json) (l : List (Json × String)) : Nat :=
  l.countP (fun p => decide (p.1 = tid))

/-- The search document stored under primary key `tid`, if any. -/
def searchLookup (tid : Json) : List (Json × String) → Option String
  | [] => none
  | p :: rest => if p.1 = tid then some p.2 else searchLookup tid rest

/-- Keys of a decoded JSON object, in order. -/
def JsonFields.keys : JsonFields → List String
  | .nil => []
  | .cons k _ tl => k :: tl.keys

/-- A well-formed Event Envelope as received from a topic: its source topic,
its optional partition key, and the decoded JSON object. -/
structure Envelope where
  topic : String
  key : Option String
  fields : JsonFields
  deriving DecidableEq

/-- The Kafka message carrying an envelope. -/
def Envelope.msg (e : Envelope) : KMsg :=
  ⟨e.topic, e.key, some (.obj e.fields)⟩

/-- The `audit_logs` row the audit role inserts for an envelope (line 159):
user_id and event_type read defensively, the payload the verbatim decoded
value. -/
def Envelope.auditRow (e : Envelope) : AuditRow :=
  ⟨e.fields.get "user_id", e.fields.get "event_type", .obj e.fields⟩

/-- Empty downstream stores (fresh tables, empty list, zero counters). -/
def stores0 : Stores :=
  ⟨[], [], fun _ _ => 0, [], []⟩

/-! ## Helper lemmas -/

lemma digitChar_lt_ten_ne_plus : ∀ k < 10, Nat.digitChar k ≠ '+' := by decide

lemma plus_notin_twoDigits (n : Nat) : '+' ∉ twoDigits n := by
  have h10 : ∀ m : Nat, Nat.digitChar (m % 10) ≠ '+' := fun m =>
    digitChar_lt_ten_ne_plus _ (Nat.mod_lt _ (by norm_num))
  simp only [twoDigits, List.mem_cons, List.not_mem_nil, or_false]
  rintro (h | h) <;> exact h10 _ h.symm

lemma plus_notin_fourDigits (n : Nat) : '+' ∉ fourDigits n := by
  have h10 : ∀ m : Nat, Nat.digitChar (m % 10) ≠ '+' := fun m =>
    digitChar_lt_ten_ne_plus _ (Nat.mod_lt _ (by norm_num))
  simp only [fourDigits, List.mem_cons, List.not_mem_nil, or_false]
  rintro (h | h | h | h) <;> exact h10 _ h.symm

lemma plus_notin_sixDigits (n : Nat) : '+' ∉ sixDigits n := by
  have h10 : ∀ m : Nat, Nat.digitChar (m % 10) ≠ '+' := fun m =>
    digitChar_lt_ten_ne_plus _ (Nat.mod_lt _ (by norm_num))
  simp only [sixDigits, List.mem_cons, List.not_mem_nil, or_false]
  rintro (h | h | h | h | h | h) <;> exact h10 _ h.symm

/-- The rendered timestamp carries the `+00:00` offset exactly when the
datetime is timezone-aware. -/
lemma hasUtcOffset_isoformat (t : PyDatetime) :
    hasUtcOffset t.isoformat = t.utc := by
  have h2 := plus_notin_twoDigits
  have h4 := plus_notin_fourDigits
  have h6 := plus_notin_sixDigits
  cases hu : t.utc <;>
    simp only [hasUtcOffset, PyDatetime.isoformat, hu, List.contains, List.elem_eq_mem,
      List.mem_append, decide_eq_true_eq, decide_eq_false_iff_not] <;>
    by_cases hm : t.microsecond = 0 <;>
    simp [hm, h2 t.month, h2 t.day, h2 t.hour, h2 t.minute, h2 t.second,
      h4 t.year, h6 t.microsecond]

lemma consumerLoop_true (role : Role) (nd : String) (st : Stores)
    (l : List LoopInput) : consumerLoop role nd true st l = some st := by
  cases l <;> simp [consumerLoop]

lemma searchUpsert_idem (tid : Json) (txt : String) (l : List (Json × String)) :
    searchUpsert tid txt (searchUpsert tid txt l) = searchUpsert tid txt l := by
  induction l with
  | nil => simp [searchUpsert]
  | cons p rest ih =>
      by_cases h : p.1 = tid <;> simp [searchUpsert, h, ih]

lemma searchLookup_upsert_self (tid : Json) (txt : String)
    (l : List (Json × String)) :
    searchLookup tid (searchUpsert tid txt l) = some txt := by
  induction l with
  | nil => simp [searchUpsert, searchLookup]
  | cons p rest ih =>
      by_cases h : p.1 = tid <;> simp [searchUpsert, searchLookup, h, ih]

lemma keyCount_upsert (tid : Json) (txt : String) (l : List (Json × String)) :
    keyCount tid (searchUpsert tid txt l) = max 1 (keyCount tid l) := by
  induction l with
  | nil => simp [searchUpsert, keyCount]
  | cons p rest ih =>
      by_cases h : p.1 = tid
      · simp only [keyCount, List.countP_cons] at ih ⊢
        simp [searchUpsert, h, List.countP_cons]
      · simp only [keyCount, List.countP_cons] at ih ⊢
        simp [searchUpsert, h, List.countP_cons, ih]

/-! ## Claim theorems -/

/-- Claim C1: for every valid Event Envelope, serializing with
`EventPayload.to_dict` and reading the decoded JSON object back the way the
consumer does reproduces `event_type`, `user_id`, `timestamp`, `data` and
`metadata` exactly.  The timestamp comes back as the full `isoformat` string
(microsecond precision), which subsumes reproduction to second precision;
the JSON text transport is lossless on these trees by the json library's
contract. -/
theorem c1_envelope_roundtrip (e : EventPayload) :
    (e.to_dict.get "event_type" = .str e.event_type) ∧
    (e.to_dict.get "user_id" = .num e.user_id) ∧
    (e.to_dict.lookup "timestamp" = some (.str e.timestamp.isoformat)) ∧
    (e.to_dict.getD "data" (.obj .nil) = .obj e.data) ∧
    (e.to_dict.lookup "metadata" = some (.obj e.metadata)) := by
  refine ⟨?_, ?_, ?_, ?_, ?_⟩ <;>
    simp [EventPayload.to_dict, JsonFields.get, JsonFields.getD, JsonFields.lookup]

/-- A concrete UTC wall-clock reading used by the counterexample below. -/
def clock0 : PyDatetime := ⟨2026, 10, 12, 9, 30, 0, 0, true⟩

/-- Claim C8, counterexample: calling `EventPayload` with only `event_type`
does not yield an envelope with a "no user" sentinel — `user_id` is a
required positional parameter, so the call raises TypeError; and an envelope
whose timestamp was defaulted (naive `datetime.utcnow()`) serializes its
timestamp without any UTC offset, contradicting "serializing any envelope
renders its timestamp as an ISO-8601 string with a UTC offset". -/
theorem c8_counterexample :
    (EventPayload.init clock0 (some "task_created") none none none none =
      .error (.typeError "missing required positional argument")) ∧
    (EventPayload.init clock0 (some "task_created") (some 5) none none none =
      .ok ⟨"task_created", 5, utcnow clock0, .nil, .nil⟩) ∧
    ((EventPayload.to_dict ⟨"task_created", 5, utcnow clock0, .nil, .nil⟩).lookup
        "timestamp" = some (.str "2026-10-12T09:30:00")) ∧
    hasUtcOffset "2026-10-12T09:30:00" = false := by
  refine ⟨rfl, rfl, ?_, by decide⟩
  decide

/-- Claim C8 as amended: constructing an Event Envelope requires both
`event_type` and `user_id` (omitting `user_id` raises TypeError — there is
no "no user" default); when both are given and nothing else, the timestamp
defaults to the current UTC time at construction as a naive datetime and
`data`/`metadata` default to empty mappings (never null); serialization
renders the timestamp via `isoformat`, which carries a UTC offset exactly
when the timestamp is timezone-aware — so the naive default serializes
without an offset. -/
theorem c8_amended_defaults (clock : PyDatetime) (et : String) (uid : Int) :
    (EventPayload.init clock (some et) none none none none =
      .error (.typeError "missing required positional argument")) ∧
    (EventPayload.init clock (some et) (some uid) none none none =
      .ok ⟨et, uid, utcnow clock, .nil, .nil⟩) ∧
    ((utcnow clock).utc = false) ∧
    (∀ t : PyDatetime, hasUtcOffset t.isoformat = t.utc) := by
  exact ⟨rfl, rfl, rfl, hasUtcOffset_isoformat⟩

lemma loop_exits_after_first_signal (role : Role) (nd : String) :
    ∀ (pre : List LoopInput) (st : Stores) (i : LoopInput) (post : List LoopInput),
      (∀ j ∈ pre, j.sig = false) → i.sig = true →
      consumerLoop role nd false st (pre ++ i :: post) =
        processAll role nd st ((pre ++ [i]).filterMap LoopInput.msg) := by
  intro pre
  induction pre with
  | nil =>
      intro st i post _ hsig
      simp only [List.nil_append, consumerLoop, Bool.false_eq_true, if_false, hsig,
        if_true, List.filterMap_cons]
      cases hm : i.msg with
      | none => simp [processAll, consumerLoop_true, gracefulHandler]
      | some m =>
          cases hp : processMessage role nd st m with
          | none => simp [processAll, hp, gracefulHandler]
          | some st2 => simp [processAll, hp, gracefulHandler, consumerLoop_true]
  | cons j pre ih =>
      intro st i post hpre hsig
      have hj : j.sig = false := hpre j (List.mem_cons_self j pre)
      have hpre2 : ∀ k ∈ pre, k.sig = false := fun k hk => hpre k (List.mem_cons_of_mem j hk)
      simp only [List.cons_append, consumerLoop, Bool.false_eq_true, if_false, hj,
        List.filterMap_cons]
      cases hm : j.msg with
      | none => simpa [processAll] using ih st i post hpre2 hsig
      | some m =>
          cases hp : processMessage role nd st m with
          | none => simp [processAll, hp]
          | some st2 => simpa [processAll, hp] using ih st2 i post hpre2 hsig

/-- Claim C9, counterexample: under ROLE=notifications the Redis connection
is open, yet no close action for it ever appears in the shutdown sequence —
the code closes only the Kafka consumer and, when open, the Postgres
connection, so "any open storage connections are closed afterwards" is false
at this concrete role. -/
theorem c9_counterexample :
    rdOpen .notifications = true ∧
    CloseAction.rdClose ∉ closeSequence .notifications := by
  refine ⟨rfl, ?_⟩
  simp [closeSequence, pgOpen]

/-- Claim C9 as amended: receipt of SIGINT or SIGTERM only sets the
cooperative `_shutdown` flag; the flag is checked exactly at the top of each
poll iteration, so the message being processed (if any) completes its
projection write before the loop exits; after exit the broker consumer
connection is closed first and the relational storage connection, when open,
is closed afterwards — the key-value store connection is never explicitly
closed by this code. -/
theorem c9_amended_shutdown :
    (∀ (role : Role) (nd : String) (pre : List LoopInput) (st : Stores)
        (i : LoopInput) (post : List LoopInput),
      (∀ j ∈ pre, j.sig = false) → i.sig = true →
      consumerLoop role nd false st (pre ++ i :: post) =
        processAll role nd st ((pre ++ [i]).filterMap LoopInput.msg)) ∧
    (∀ b, gracefulHandler b = true) ∧
    (∀ r, (closeSequence r).head? = some CloseAction.consumer) ∧
    (∀ r, pgOpen r = true → closeSequence r = [CloseAction.consumer, CloseAction.pgClose]) ∧
    (∀ r, pgOpen r = false → closeSequence r = [CloseAction.consumer]) ∧
    (∀ r, CloseAction.rdClose ∉ closeSequence r) := by
  refine ⟨fun role nd pre st i post h1 h2 =>
      loop_exits_after_first_signal role nd pre st i post h1 h2,
    fun b => by simp [gracefulHandler], ?_, ?_, ?_, ?_⟩ <;>
    intro r <;> cases r <;> simp [closeSequence, pgOpen]

/-- Sample decoded `data` payload of a task_created event. -/
def dataS : JsonFields :=
  .cons "task_id" (.num 42) (.cons "title" (.str "Fix bug") .nil)

/-- Sample decoded envelope fields of a task_created event. -/
def fieldsS : JsonFields :=
  .cons "event_type" (.str "task_created")
    (.cons "user_id" (.num 5)
      (.cons "timestamp" (.str "2026-10-12T10:00:00Z")
        (.cons "data" (.obj dataS) .nil)))

/-- The sample event as a message received on the task-events topic. -/
def msgS : KMsg := ⟨"task-events", none, some (.obj fieldsS)⟩

theorem c9_witness :
    (consumerLoop .audit "2026-10-12" false stores0
        ([LoopInput.mk false none] ++ LoopInput.mk true (some msgS) ::
          [LoopInput.mk false (some msgS)]) =
      processAll .audit "2026-10-12" stores0
        (([LoopInput.mk false none] ++ [LoopInput.mk true (some msgS)]).filterMap
          LoopInput.msg)) ∧
    closeSequence .audit = [CloseAction.consumer, CloseAction.pgClose] :=
  ⟨c9_amended_shutdown.1 .audit "2026-10-12" [LoopInput.mk false none] stores0
      (LoopInput.mk true (some msgS)) [LoopInput.mk false (some msgS)] (by decide) rfl,
   c9_amended_shutdown.2.2.2.1 .audit rfl⟩

/-- Claim C2: under the search-index role, projecting two events carrying the
same non-null `data.task_id` leaves exactly one search document for that
task_id, whose text is built from the title and description of the later
event (last write wins); projecting the same event twice is idempotent; and
an event whose `data` carries no task identifier (missing key or null value,
which `data.get` conflates) causes no write for this role.  The initial
`keyCount ≤ 1` hypothesis is the primary-key invariant of the
`search_index_tasks` table. -/
theorem c2_search_index_upsert :
    (∀ (nd : String) (st : Stores) (m1 m2 : KMsg) (f1 f2 d1 d2 : JsonFields)
        (tid : Json),
      m1.value = some (.obj f1) → m2.value = some (.obj f2) →
      f1.getD "data" (.obj .nil) = .obj d1 → f2.getD "data" (.obj .nil) = .obj d2 →
      d1.get "task_id" = tid → d2.get "task_id" = tid → tid ≠ .null →
      keyCount tid st.searchIdx ≤ 1 →
      ∃ st1 st2, processMessage .searchIndex nd st m1 = some st1 ∧
        processMessage .searchIndex nd st1 m2 = some st2 ∧
        keyCount tid st2.searchIdx = 1 ∧
        searchLookup tid st2.searchIdx = some (searchText d2)) ∧
    (∀ (nd : String) (st st1 : Stores) (m : KMsg),
      processMessage .searchIndex nd st m = some st1 →
      processMessage .searchIndex nd st1 m = some st1) ∧
    (∀ (nd : String) (st : Stores) (m : KMsg) (f d : JsonFields),
      m.value = some (.obj f) → f.getD "data" (.obj .nil) = .obj d →
      d.get "task_id" = .null →
      processMessage .searchIndex nd st m = some st) := by
  refine ⟨?_, ?_, ?_⟩
  · intro nd st m1 m2 f1 f2 d1 d2 tid hv1 hv2 hd1 hd2 ht1 ht2 htn hcnt
    have h1 : processMessage .searchIndex nd st m1 = some { st with searchIdx := searchUpsert tid (searchText d1) st.searchIdx } := by
      simp [processMessage, hv1, hd1, ht1, htn]
    have h2 : processMessage .searchIndex nd { st with searchIdx := searchUpsert tid (searchText d1) st.searchIdx } m2 = some { st with searchIdx := searchUpsert tid (searchText d2) (searchUpsert tid (searchText d1) st.searchIdx) } := by
      simp [processMessage, hv2, hd2, ht2, htn]
    refine ⟨_, _, h1, h2, ?_, searchLookup_upsert_self _ _ _⟩
    rw [keyCount_upsert, keyCount_upsert]
    omega
  · intro nd st st1 m h
    rcases hm : m.value with _ | v
    · simp only [processMessage, hm, Option.some.injEq] at h
      subst h
      simp [processMessage, hm]
    · cases v with
      | obj fields =>
          rcases hd : fields.getD "data" (.obj .nil) with _ | _ | _ | _ | _ | d <;>
            simp only [processMessage, hm, hd, Option.some.injEq, reduceCtorEq] at h
          by_cases ht : d.get "task_id" = .null
          · simp only [ht, if_true, Option.some.injEq] at h
            subst h
            simp [processMessage, hm, hd, ht]
          · simp only [ht, if_false, Option.some.injEq] at h
            subst h
            simp [processMessage, hm, hd, ht, searchUpsert_idem]
      | null => simp [processMessage, hm] at h
      | bool b => simp [processMessage, hm] at h
      | num n => simp [processMessage, hm] at h
      | str s => simp [processMessage, hm] at h
      | arr l => simp [processMessage, hm] at h
  · intro nd st m f d hv hd ht
    simp [processMessage, hv, hd, ht]

/-- Updated `data` payload for the same task, with new title and description. -/
def dataS2 : JsonFields :=
  .cons "task_id" (.num 42)
    (.cons "title" (.str "Fix bug fast")
      (.cons "description" (.str "hotfix") .nil))

/-- The updated event as received on the task-events topic. -/
def msgS2 : KMsg :=
  ⟨"task-events", none,
    some (.obj (.cons "event_type" (.str "task_updated")
      (.cons "user_id" (.num 5) (.cons "data" (.obj dataS2) .nil))))⟩

theorem c2_witness :
    ∃ st1 st2, processMessage .searchIndex "2026-10-12" stores0 msgS = some st1 ∧
      processMessage .searchIndex "2026-10-12" st1 msgS2 = some st2 ∧
      keyCount (.num 42) st2.searchIdx = 1 ∧
      searchLookup (.num 42) st2.searchIdx = some (searchText dataS2) :=
  c2_search_index_upsert.1 "2026-10-12" stores0 msgS msgS2 fieldsS
    (.cons "event_type" (.str "task_updated")
      (.cons "user_id" (.num 5) (.cons "data" (.obj dataS2) .nil)))
    dataS dataS2 (.num 42) rfl rfl (by decide) (by decide) (by decide) (by decide)
    (by decide) (by decide)

/-- Claim C4: under the activity-feed role, every decoded event whose `data`
is a mapping inserts exactly one row: entity kind "task" with `entity_id`
the stored `task_id` value when the key is present (a stored null yields a
null entity_id), and entity kind "generic" with a null `entity_id` when the
key is absent. -/
theorem c4_activity_feed_row :
    ∀ (nd : String) (st : Stores) (m : KMsg) (f d : JsonFields),
      m.value = some (.obj f) → f.getD "data" (.obj .nil) = .obj d →
      (processMessage .activityFeed nd st m = some { st with feed := st.feed ++ [⟨f.get "user_id", f.get "event_type", if d.hasKey "task_id" then "task" else "generic", d.get "task_id", .obj f⟩] }) ∧
      (∀ tv : Json, d.lookup "task_id" = some tv →
        (if d.hasKey "task_id" then "task" else "generic") = "task" ∧
        d.get "task_id" = tv) ∧
      (d.lookup "task_id" = none →
        (if d.hasKey "task_id" then "task" else "generic") = "generic" ∧
        d.get "task_id" = .null) := by
  intro nd st m f d hv hd
  refine ⟨by simp [processMessage, hv, hd], ?_, ?_⟩
  · intro tv htv
    simp [JsonFields.hasKey, JsonFields.get, htv]
  · intro htv
    simp [JsonFields.hasKey, JsonFields.get, htv]

theorem c4_witness :
    (processMessage .activityFeed "2026-10-12" stores0 msgS = some { stores0 with feed := stores0.feed ++ [⟨fieldsS.get "user_id", fieldsS.get "event_type", if dataS.hasKey "task_id" then "task" else "generic", dataS.get "task_id", .obj fieldsS⟩] }) ∧
    ((if dataS.hasKey "task_id" then "task" else "generic") = "task" ∧
      dataS.get "task_id" = .num 42) :=
  ⟨(c4_activity_feed_row "2026-10-12" stores0 msgS fieldsS dataS rfl (by decide)).1,
   (c4_activity_feed_row "2026-10-12" stores0 msgS fieldsS dataS rfl (by decide)).2.1
     (.num 42) (by decide)⟩

/-- Claim C10: for an event whose `data` mapping stores `task_id: null`, the
activity-feed role classifies it as entity kind "task" with a null entity_id
(`"task_id" in data` tests key presence), while the search-index role skips
it entirely (`data.get("task_id") is not None` tests for a non-null value):
the two roles disagree on whether such an event carries a task identifier. -/
theorem c10_null_task_id_disagreement :
    ∀ (nd : String) (st : Stores) (m : KMsg) (f d : JsonFields),
      m.value = some (.obj f) → f.getD "data" (.obj .nil) = .obj d →
      d.lookup "task_id" = some .null →
      (processMessage .activityFeed nd st m = some { st with feed := st.feed ++ [⟨f.get "user_id", f.get "event_type", "task", .null, .obj f⟩] }) ∧
      (processMessage .searchIndex nd st m = some st) := by
  intro nd st m f d hv hd ht
  have hget : d.get "task_id" = .null := by simp [JsonFields.get, ht]
  have hhas : d.hasKey "task_id" = true := by simp [JsonFields.hasKey, ht]
  constructor
  · simp [processMessage, hv, hd, hhas, hget]
  · simp [processMessage, hv, hd, hget]

/-- Event whose data stores `task_id: null`. -/
def msgNullTid : KMsg :=
  ⟨"task-events", none,
    some (.obj (.cons "event_type" (.str "task_deleted")
      (.cons "user_id" (.num 7)
        (.cons "data" (.obj (.cons "task_id" .null .nil)) .nil))))⟩

theorem c10_witness :
    (processMessage .activityFeed "2026-10-12" stores0 msgNullTid = some { stores0 with feed := stores0.feed ++ [⟨.num 7, .str "task_deleted", "task", .null, .obj (.cons "event_type" (.str "task_deleted") (.cons "user_id" (.num 7) (.cons "data" (.obj (.cons "task_id" .null .nil)) .nil)))⟩] }) ∧
    (processMessage .searchIndex "2026-10-12" stores0 msgNullTid = some stores0) := by
  have h := c10_null_task_id_disagreement "2026-10-12" stores0 msgNullTid
    (.cons "event_type" (.str "task_deleted")
      (.cons "user_id" (.num 7)
        (.cons "data" (.obj (.cons "task_id" .null .nil)) .nil)))
    (.cons "task_id" .null .nil) rfl (by decide) (by decide)
  refine ⟨?_, h.2⟩
  have h1 := h.1
  simpa [JsonFields.get, JsonFields.lookup] using h1

/-- Claim C5: under the audit role, projecting any sequence of K decoded
events appends exactly K audit rows, one per event in order, each carrying
the verbatim original envelope as payload (all data and metadata keys kept;
no event filtered, truncated or merged). -/
theorem c5_audit_verbatim_append :
    (∀ (nd : String) (envs : List Envelope) (st : Stores),
      processAll .audit nd st (envs.map Envelope.msg) =
        some { st with auditLog := st.auditLog ++ envs.map Envelope.auditRow }) ∧
    (∀ (st : Stores) (envs : List Envelope),
      (st.auditLog ++ envs.map Envelope.auditRow).length =
        st.auditLog.length + envs.length) ∧
    (∀ e : Envelope, (Envelope.auditRow e).payload = .obj e.fields) := by
  refine ⟨?_, ?_, fun e => rfl⟩
  · intro nd envs
    induction envs with
    | nil => intro st; simp [processAll]
    | cons e envs ih =>
        intro st
        simp [processAll, processMessage, Envelope.msg, Envelope.auditRow, ih]
  · intro st envs
    simp

/-- Claim C6: under the notifications role, every decoded event pushes
exactly one record onto the head of the process-wide "notifications" list,
and that record is a JSON object holding exactly the source topic, the
event's event_type, its user_id and its data payload, under those keys. -/
theorem c6_notification_record :
    (∀ (nd : String) (st : Stores) (e : Envelope),
      processMessage .notifications nd st e.msg =
        some { st with notifList := notifRecord e.topic (e.fields.get "event_type") (e.fields.get "user_id") (e.fields.getD "data" (.obj .nil)) :: st.notifList }) ∧
    (∀ (topic : String) (et uid data : Json),
      ∃ rf, notifRecord topic et uid data = .obj rf ∧
        rf.keys = ["topic", "event_type", "user_id", "data"] ∧
        rf.get "topic" = .str topic ∧ rf.get "event_type" = et ∧
        rf.get "user_id" = uid ∧ rf.get "data" = data) := by
  constructor
  · intro nd st e
    simp [processMessage, Envelope.msg, notifRecord]
  · intro topic et uid data
    refine ⟨_, rfl, rfl, ?_, ?_, ?_, ?_⟩ <;>
      simp [notifRecord, JsonFields.get, JsonFields.lookup]

/-- Claim C7: a message whose value fails to parse as JSON is dropped without
raising and without any projection write, and the stream of remaining
messages is projected exactly as it would have been had the malformed
message never arrived — for every role and every position in the stream. -/
theorem c7_malformed_json_isolation :
    ∀ (role : Role) (nd : String) (st : Stores) (pre post : List KMsg)
      (bad : KMsg), bad.value = none →
      (processMessage role nd st bad = some st) ∧
      processAll role nd st (pre ++ bad :: post) =
        processAll role nd st (pre ++ post) := by
  intro role nd st pre post bad hbad
  constructor
  · simp [processMessage, hbad]
  · induction pre generalizing st with
    | nil => simp [processAll, processMessage, hbad]
    | cons m pre ih =>
        simp only [List.cons_append, processAll]
        cases hp : processMessage role nd st m with
        | none => rfl
        | some st2 => exact ih st2

theorem c7_witness :
    (processMessage .notifications "2026-10-12" stores0
        (KMsg.mk "task-events" none none) = some stores0) ∧
    processAll .notifications "2026-10-12" stores0
        ([msgS] ++ KMsg.mk "task-events" none none :: [msgS2]) =
      processAll .notifications "2026-10-12" stores0 ([msgS] ++ [msgS2]) :=
  c7_malformed_json_isolation .notifications "2026-10-12" stores0 [msgS] [msgS2]
    (KMsg.mk "task-events" none none) rfl

lemma hincrby_mono (k f : String) (c : String → String → Nat) (k2 f2 : String) :
    c k2 f2 ≤ hincrby k f c k2 f2 := by
  unfold hincrby
  split <;> omega

lemma analytics_step_mono (nd : String) (st st1 : Stores) (m : KMsg)
    (hp : processMessage .analytics nd st m = some st1) (k f : String) :
    st.analytics k f ≤ st1.analytics k f := by
  rcases hm : m.value with _ | v
  · simp only [processMessage, hm, Option.some.injEq] at hp
    subst hp
    exact le_refl _
  · cases v with
    | obj fields =>
        rcases hr : redisFieldStr (if jsonTruthy (fields.get "event_type") then fields.get "event_type" else .str "unknown") with _ | fs <;>
          simp only [processMessage, hm, hr, Option.some.injEq, reduceCtorEq] at hp
        subst hp
        exact hincrby_mono _ _ _ _ _
    | null => simp [processMessage, hm] at hp
    | bool b => simp [processMessage, hm] at hp
    | num n => simp [processMessage, hm] at hp
    | str s => simp [processMessage, hm] at hp
    | arr l => simp [processMessage, hm] at hp

/-- Claim C3: under the analytics role, projecting N events that share a
(nonempty string) event_type and whose timestamps fall on the same day `d`
increments the hash field named by that event_type under key
`analytics:{d}` by exactly N and changes no other day/event_type counter;
and every counter is monotonically non-decreasing across any analytics
projection. -/
theorem c3_analytics_counter :
    (∀ (nd d et : String) (st : Stores) (envs : List Envelope),
      et ≠ "" →
      (∀ e ∈ envs, e.fields.get "event_type" = .str et) →
      (∀ e ∈ envs, ts_day (e.fields.getD "timestamp" (.str "")) nd = d) →
      ∃ st2, processAll .analytics nd st (envs.map Envelope.msg) = some st2 ∧
        st2.analytics ("analytics:" ++ d) et =
          st.analytics ("analytics:" ++ d) et + envs.length ∧
        (∀ k f, ¬(k = "analytics:" ++ d ∧ f = et) →
          st2.analytics k f = st.analytics k f)) ∧
    (∀ (nd : String) (st : Stores) (ms : List KMsg) (st2 : Stores),
      processAll .analytics nd st ms = some st2 →
      ∀ k f, st.analytics k f ≤ st2.analytics k f) := by
  constructor
  · intro nd d et st envs hne
    induction envs generalizing st with
    | nil =>
        intro _ _
        exact ⟨st, by simp [processAll], by simp, fun k f _ => rfl⟩
    | cons e envs ih =>
        intro het hday
        have he : e.fields.get "event_type" = .str et := het e (by simp)
        have hd : ts_day (e.fields.getD "timestamp" (.str "")) nd = d :=
          hday e (by simp)
        have step1 : processMessage .analytics nd st e.msg = some { st with analytics := hincrby ("analytics:" ++ d) et st.analytics } := by
          simp [processMessage, Envelope.msg, he, hd, jsonTruthy, hne, redisFieldStr]
        obtain ⟨st2, hrun, hcount, hother⟩ :=
          ih { st with analytics := hincrby ("analytics:" ++ d) et st.analytics }
            (fun x hx => het x (List.mem_cons_of_mem e hx))
            (fun x hx => hday x (List.mem_cons_of_mem e hx))
        refine ⟨st2, ?_, ?_, ?_⟩
        · simp only [List.map_cons, processAll, step1]
          exact hrun
        · rw [hcount]
          simp only [hincrby, List.length_cons]
          simp
          omega
        · intro k f hkf
          rw [hother k f hkf]
          simp only [hincrby]
          rw [if_neg hkf]
  · intro nd st ms
    induction ms generalizing st with
    | nil =>
        intro st2 h k f
        simp only [processAll, Option.some.injEq] at h
        subst h
        exact le_refl _
    | cons m ms ih =>
        intro st2 h k f
        simp only [processAll] at h
        cases hp : processMessage .analytics nd st m with
        | none =>
            rw [hp] at h
            exact absurd h (by simp)
        | some st1 =>
            rw [hp] at h
            exact le_trans (analytics_step_mono nd st st1 m hp k f) (ih st1 st2 h k f)

theorem c3_witness :
    ∃ st2, processAll .analytics "2026-10-12" stores0 ([Envelope.mk "task-events" none fieldsS].map Envelope.msg) = some st2 ∧
      st2.analytics ("analytics:" ++ "2026-10-12") "task_created" =
        stores0.analytics ("analytics:" ++ "2026-10-12") "task_created" +
          [Envelope.mk "task-events" none fieldsS].length ∧
      (∀ k f, ¬(k = "analytics:" ++ "2026-10-12" ∧ f = "task_created") →
        st2.analytics k f = stores0.analytics k f) :=
  c3_analytics_counter.1 "2026-10-12" "2026-10-12" "task_created" stores0
    [Envelope.mk "task-events" none fieldsS] (by decide) (by decide) (by decide)
